import Mathlib

/-!
Verification of the fetch-and-dedupe pipeline of `src/main.py`
(twitter-to-discord-bot).

The Python source is shallowly embedded below.  Python strings are modelled
as Lean `String`s, but every string operation the source performs
(`str.split` on a single-character separator, `str.strip`, `str.join`,
`str.replace`, `str.startswith`, the `in` containment test) is defined
here at the character-list level so that its semantics is explicit and
kernel-computable.  Network and parser effects (`requests.get`,
`ElementTree.fromstring`, `BeautifulSoup`) are modelled by an explicit
environment `Env`; HTML/XML documents are represented by the element
structure the source actually queries.
-/

set_option autoImplicit false

namespace TwitterBot

/-- Whitespace test used to model Python's `str.strip`. -/
def isWs (c : Char) : Bool := c.isWhitespace

/-- Model of Python's `str.strip()`: drop whitespace from both ends. -/
def trimChars (l : List Char) : List Char :=
  ((l.dropWhile isWs).reverse.dropWhile isWs).reverse

/-- Model of Python's `str.split(sep)` for a single-character separator
`c`.  Like Python, splitting the empty string yields `[[]]` (one empty
field), and every occurrence of `c` starts a new field. -/
def splitChar (c : Char) : List Char → List (List Char)
  | [] => [[]]
  | x :: xs =>
    match splitChar c xs with
    | [] => if x = c then [[], []] else [[x]]
    | h :: t => if x = c then [] :: h :: t else (x :: h) :: t

/-- Model of Python's `sep.join(parts)` for a single-character separator. -/
def joinChar (c : Char) : List (List Char) → List Char
  | [] => []
  | [p] => p
  | p :: q :: rest => p ++ c :: joinChar c (q :: rest)

/-- Model of Python's `xs[-n:]` slice: the last `n` elements. -/
def takeLast {α : Type} (n : Nat) (l : List α) : List α :=
  l.drop (l.length - n)

/-- Model of Python's substring containment test `pat in s` on character
lists: some suffix of `s` begins with `pat`. -/
def hasInfixChars (pat : List Char) : List Char → Bool
  | [] => pat.isPrefixOf []
  | c :: cs => pat.isPrefixOf (c :: cs) || hasInfixChars pat cs

/-- Model of Python's `s.replace(pat, rep)` (all non-overlapping
occurrences, left to right), structurally recursive on a fuel that counts
scanned positions: with a non-empty pattern every step consumes at least
one character, so fuel `s.length` never runs out. -/
def replCharsFuel (pat rep : List Char) : Nat → List Char → List Char
  | _, [] => []
  | 0, s => s
  | fuel + 1, c :: cs =>
    if pat.isPrefixOf (c :: cs) then
      rep ++ replCharsFuel pat rep fuel ((c :: cs).drop pat.length)
    else
      c :: replCharsFuel pat rep fuel cs

/-- Model of Python's `s.replace(pat, rep)`.  An empty pattern is never
used by the source; we let it leave the string unchanged. -/
def replChars (pat rep s : List Char) : List Char :=
  match pat with
  | [] => s
  | _ :: _ => replCharsFuel pat rep s.length s

/-- Python `s.startswith(pre)`. -/
def pyStartsWith (s pre : String) : Bool := pre.data.isPrefixOf s.data

/-- Python `s.strip()`. -/
def pyStrip (s : String) : String := String.mk (trimChars s.data)

/-- Python `needle in s`. -/
def pyIn (needle s : String) : Bool := hasInfixChars needle.data s.data

/-- Python `s.replace(pat, rep)`. -/
def pyReplace (s pat rep : String) : String :=
  String.mk (replChars pat.data rep.data s.data)

/-- Python `s.split(c)` for a one-character separator, as strings. -/
def pySplitOn (c : Char) (s : String) : List String :=
  (splitChar c s.data).map String.mk

/-!
HTML documents are represented by the element structure the source
queries through BeautifulSoup: an ordered list of elements, each with a
tag name and an attribute list.  `soup.find(tag)` is the first element
with that tag; `elem.get(key)` is the first attribute with that key.
-/

/-- One HTML element as seen through the BeautifulSoup calls of `src/main.py`. -/
structure HtmlElem where
  tag : String
  attrs : List (String × String)
deriving DecidableEq

/-- A parsed HTML fragment (the element list BeautifulSoup exposes). -/
abbrev Markup := List HtmlElem

/-- BeautifulSoup `elem.get(key)`: first attribute value for `key`, else `None`. -/
def getAttr (e : HtmlElem) (key : String) : Option String :=
  (e.attrs.find? (fun p => p.1 == key)).map (fun p => p.2)

/-- BeautifulSoup `soup.find(tag)`: first element with the given tag. -/
def findTag (m : Markup) (t : String) : Option HtmlElem :=
  m.find? (fun e => e.tag == t)

/-- BeautifulSoup `soup.find("meta", property="og:image")` (line 62 / 91 of
`src/main.py`): first `meta` element whose `property` attribute is `og:image`. -/
def findMetaOg (m : Markup) : Option HtmlElem :=
  m.find? (fun e => e.tag == "meta" && getAttr e "property" == some "og:image")

/-- Lines 64-68 and 93-97 of `src/main.py`: read `content` of the og:image
meta element and accept it when it is truthy and starts with `"http"`. -/
def ogImageOf (m : Markup) : Option String :=
  match findMetaOg m with
  | none => none
  | some meta_image =>
    match getAttr meta_image "content" with
    | none => none
    | some og_image =>
      if og_image ≠ "" ∧ pyStartsWith og_image "http" then some og_image else none

/-- Outcome of one `requests.get` call: a transport-level success carrying a
status code and body text, or a raised `requests.RequestException`. -/
inductive FetchResult where
  | ok (status : Nat) (body : String)
  | exn
deriving DecidableEq

/-- One `item` element of the fetched RSS document, as accessed by
`get_latest_tweets` (lines 146-152 of `src/main.py`).  For each child the
outer `Option` is `ElementTree`'s `item.find(...)` (`none` = no such child,
so `.text` raises `AttributeError`) and the inner value is the element's
`.text` (`none` = empty element).  The description text is carried in its
BeautifulSoup-parsed form since the source only ever parses it. -/
structure XmlItem where
  link : Option (Option String)
  description : Option (Option Markup)
  pubDate : Option (Option String)
deriving DecidableEq

/-- The effectful surroundings of the script: `requests.get` (keyed by URL),
`ElementTree.fromstring` and `BeautifulSoup` on fetched bodies. -/
structure Env where
  fetch : String → FetchResult
  parseXml : String → Except Unit (List XmlItem)
  parseHtml : String → Markup

/-- Lines 21-26 of `src/main.py`: the candidate Nitter instances, in order. -/
def NITTER_INSTANCES : List String :=
  ["https://nitter.poast.org",
   "https://nitter.privacydev.net",
   "https://nitter.42l.fr",
   "https://nitter.cz"]

/-- Status range in which `response.raise_for_status()` raises `HTTPError`. -/
def raisesForStatus (s : Nat) : Prop := 400 ≤ s ∧ s < 600

instance (s : Nat) : Decidable (raisesForStatus s) := by
  unfold raisesForStatus; infer_instance

/-- The expression `NITTER_INSTANCES[0]` of line 83 of `src/main.py`. -/
def firstInstance : String := NITTER_INSTANCES.headD ""

/-- Lines 80-103 (`retry_media_extraction`), unfolded over the remaining
instance list.  Each attempt swaps the first pool instance's base URL into
the tweet link (`tweet_link.replace(NITTER_INSTANCES[0], instance)`),
fetches, and accepts a valid og:image; any `RequestException` (including
the `HTTPError` from `raise_for_status`) moves on to the next instance.
Returns the result together with the list of URLs fetched. -/
def retryAux (env : Env) (tweet_link : String) :
    List String → Option String × List String
  | [] => (none, [])
  | instance_ :: rest =>
    let alternate_tweet_link :=
      pyReplace tweet_link firstInstance instance_
    match env.fetch alternate_tweet_link with
    | .exn =>
      let r := retryAux env tweet_link rest
      (r.1, alternate_tweet_link :: r.2)
    | .ok status body =>
      if raisesForStatus status then
        let r := retryAux env tweet_link rest
        (r.1, alternate_tweet_link :: r.2)
      else
        match ogImageOf (env.parseHtml body) with
        | some og_image => (some og_image, [alternate_tweet_link])
        | none =>
          let r := retryAux env tweet_link rest
          (r.1, alternate_tweet_link :: r.2)

/-- Lines 80-103 of `src/main.py`: retry media extraction over the whole
instance pool.  Returns the extracted URL (if any) and the fetched URLs. -/
def retry_media_extraction (env : Env) (tweet_link : String) :
    Option String × List String :=
  retryAux env tweet_link NITTER_INSTANCES

/-- Lines 51-78 of `src/main.py` (`extract_media_from_tweet`): fetch the
tweet page and extract its og:image.  On `HTTPError` with status 429 the
pool-wide retry runs; any other failure yields `none`.  Returns the result
together with the list of URLs fetched. -/
def extract_media_from_tweet (env : Env) (tweet_link : String) :
    Option String × List String :=
  match env.fetch tweet_link with
  | .exn => (none, [tweet_link])
  | .ok status body =>
    if raisesForStatus status then
      if status = 429 then
        let r := retry_media_extraction env tweet_link
        (r.1, tweet_link :: r.2)
      else (none, [tweet_link])
    else
      match ogImageOf (env.parseHtml body) with
      | some og_image => (some og_image, [tweet_link])
      | none => (none, [tweet_link])

/-- Lines 106-121 of `src/main.py` (`extract_image_from_description`): if the
description is truthy and holds an `img` whose `src` is truthy, starts with
`"http"` and does not contain `"nitter"`, return that; in every other case
fall back to fetching the tweet page.  Returns the result and fetched URLs. -/
def extract_image_from_description (env : Env) (description : Option Markup)
    (tweet_link : String) : Option String × List String :=
  let fromDesc : Option String :=
    match description with
    | none => none
    | some soup =>
      match findTag soup "img" with
      | none => none
      | some img_tag =>
        match getAttr img_tag "src" with
        | none => none
        | some img_url =>
          if img_url ≠ "" ∧ pyStartsWith img_url "http" ∧ pyIn "nitter" img_url = false
          then some img_url else none
  match fromDesc with
  | some img_url => (some img_url, [])
  | none => extract_media_from_tweet env tweet_link

/-- Line 40 of `src/main.py`: a probe response is accepted when
`response.status_code == 200 and response.text.strip().startswith("<?xml")`;
a raised `RequestException` is never accepted. -/
def acceptProbe (r : FetchResult) : Bool :=
  match r with
  | .ok status body => status == 200 && pyStartsWith (pyStrip body) "<?xml"
  | .exn => false

/-- Lines 33-46 (`get_working_nitter_instance`) unfolded over the remaining
instance list: probe `f"{instance}/{username}/rss"` for each candidate in
order, return the first accepted one.  Also returns the list of instances
actually probed. -/
def selectAux (env : Env) (username : String) :
    List String → List String × Option String
  | [] => ([], none)
  | instance_ :: rest =>
    if acceptProbe (env.fetch (instance_ ++ "/" ++ username ++ "/rss")) then
      ([instance_], some instance_)
    else
      let r := selectAux env username rest
      (instance_ :: r.1, r.2)

/-- Lines 33-46 of `src/main.py`: first working Nitter instance, or `None`. -/
def get_working_nitter_instance (env : Env) (username : String) : Option String :=
  (selectAux env username NITTER_INSTANCES).2

/-- The instances `get_working_nitter_instance` actually probes. -/
def probedInstances (env : Env) (username : String) : List String :=
  (selectAux env username NITTER_INSTANCES).1

/-- Exceptions of the embedded Python fragments that no handler in
`src/main.py` catches. -/
inductive PyErr where
  | attrError
deriving DecidableEq

/-- The normalized tuple `(tweet_id, tweet_link, tweet_description,
tweet_image, tweet_timestamp)` built at line 153 of `src/main.py`. -/
structure Tweet where
  id : String
  link : String
  description : Option Markup
  image : Option String
  timestamp : Option String
deriving DecidableEq

/-- Line 152 of `src/main.py`: `item.find("pubDate").text if item.find("pubDate")
is not None else None`.  The timestamp text is stored verbatim (it is not
parsed during extraction). -/
def pubDateText (item : XmlItem) : Option String :=
  match item.pubDate with
  | none => none
  | some t => t

/-- Lines 147-153 of `src/main.py`, one loop iteration: `item.find("link").text`
raises `AttributeError` when the `link` child is missing, and
`tweet_link.split("/")` raises when the link text is `None`; the same
`.text` access pattern applies to `description`.  `pubDate` is guarded by
an explicit `is not None` check. -/
def processItem (env : Env) (item : XmlItem) : Except PyErr Tweet :=
  match item.link with
  | none => .error .attrError
  | some none => .error .attrError
  | some (some tweet_link) =>
    let tweet_id := String.mk ((splitChar '/' tweet_link.data).getLastD [])
    match item.description with
    | none => .error .attrError
    | some tweet_description =>
      let tweet_image := (extract_image_from_description env tweet_description tweet_link).1
      .ok ⟨tweet_id, tweet_link, tweet_description, tweet_image, pubDateText item⟩

/-- The item loop of lines 146-153.  An uncaught exception in any iteration
aborts the whole loop (and discards the tweets accumulated so far), since
the surrounding `try` only catches `RequestException` and `ParseError`. -/
def extractItems (env : Env) : List XmlItem → Except PyErr (List Tweet)
  | [] => .ok []
  | item :: rest =>
    match processItem env item with
    | .error e => .error e
    | .ok t =>
      match extractItems env rest with
      | .error e => .error e
      | .ok ts => .ok (t :: ts)

/-- Lines 132-159 of `src/main.py` (`get_latest_tweets`): select a working
instance (none available yields `[]`), fetch the RSS URL (a
`RequestException`, an error status via `raise_for_status`, or an XML parse
failure each yield the tweets accumulated so far, i.e. `[]`), then process
the first `max_tweets` items.  An `AttributeError` inside the loop escapes. -/
def get_latest_tweets (env : Env) (username : String) (max_tweets : Nat) :
    Except PyErr (List Tweet) :=
  match get_working_nitter_instance env username with
  | none => .ok []
  | some working_instance =>
    match env.fetch (working_instance ++ "/" ++ username ++ "/rss") with
    | .exn => .ok []
    | .ok status body =>
      if raisesForStatus status then .ok []
      else
        match env.parseXml body with
        | .error _ => .ok []
        | .ok items => extractItems env (items.take max_tweets)

/-- Line 213 of `src/main.py`: the ids that `save_last_tweets` keeps, given
the order in which `list(tweet_ids)` happens to enumerate the working set
(Python sets do not expose insertion order, so that enumeration order is an
explicit parameter constrained to be a permutation where it matters). -/
def saveIds (iterOrder : List String) : List String :=
  takeLast 50 iterOrder

/-- Lines 210-215 of `src/main.py` (`save_last_tweets`): the file content
written, namely `"\n".join(list(tweet_ids)[-50:])`. -/
def save_last_tweets (iterOrder : List String) : String :=
  String.mk (joinChar '\n' ((saveIds iterOrder).map String.data))

/-- Lines 201-207 of `src/main.py` (`load_last_tweets`): with no file the
set is empty; otherwise `set(f.read().strip().split("\n"))`.  The Python
set is represented by the split list (membership is what the program
consumes). -/
def load_last_tweets (file : Option String) : List String :=
  match file with
  | none => []
  | some contents => (splitChar '\n' (trimChars contents.data)).map String.mk

/-- Lines 178-186 of `src/main.py`: the `image` field attached to the
Discord embed.  A truthy media URL is fetched first; it is forwarded only
when that verification request returns status 200 (and the URL starts with
`"http"`); an exception or any other status suppresses it. -/
def discordEmbedImage (env : Env) (tweet_image : Option String) : Option String :=
  match tweet_image with
  | none => none
  | some img_url =>
    if img_url = "" then none
    else
      match env.fetch img_url with
      | .exn => none
      | .ok status _ =>
        if status == 200 && pyStartsWith img_url "http" then some img_url else none

/-- Lines 227-238 of `src/main.py`, one iteration of the per-tweet loop:
skip when the id is truthy and already recorded; otherwise invoke the
notifier (`send_to_discord`, whose webhook response status is abstracted by
`outcome`); on status 204 add the id to the working set and persist it via
`save_last_tweets` (the persisted ids are `saveIds` of the set's enumeration
order, supplied by `orderOf`).  Returns the new working set, the new
persisted id list, and the observed delivery status (`none` = skipped,
notifier not invoked). -/
def dispatchTweet (outcome : Tweet → Nat) (orderOf : List String → List String)
    (working persisted : List String) (t : Tweet) :
    List String × List String × Option Nat :=
  if t.id ≠ "" ∧ t.id ∈ working then (working, persisted, none)
  else
    let status := outcome t
    if status = 204 then
      let working' := if t.id ∈ working then working else working ++ [t.id]
      (working', saveIds (orderOf working'), some status)
    else (working, persisted, some status)

/-- The whole per-tweet loop of lines 227-238 over a list of tweets (already
in iteration order).  Returns the final working set, the final persisted id
list, and the ordered list of notifier invocations with their statuses. -/
def runDispatch (outcome : Tweet → Nat) (orderOf : List String → List String)
    (working persisted : List String) :
    List Tweet → List String × List String × List (Tweet × Nat)
  | [] => (working, persisted, [])
  | t :: ts =>
    let step := dispatchTweet outcome orderOf working persisted t
    let rest := runDispatch outcome orderOf step.1 step.2.1 ts
    (rest.1, rest.2.1,
      match step.2.2 with
      | none => rest.2.2
      | some s => (t, s) :: rest.2.2)

/-- Lines 225-238 of `src/main.py` for one account: the fetched tweets are
iterated in `reversed(tweets)` order. -/
def processAccount (outcome : Tweet → Nat) (orderOf : List String → List String)
    (working persisted : List String) (tweets : List Tweet) :
    List String × List String × List (Tweet × Nat) :=
  runDispatch outcome orderOf working persisted tweets.reverse

/-- The outcome of one retry fetch in `retry_media_extraction`, as a
function of the URL: `none` on `RequestException`, on an error status
(`raise_for_status`), or when the page carries no acceptable og:image. -/
def retryProbe (env : Env) (url : String) : Option String :=
  match env.fetch url with
  | .exn => none
  | .ok status body =>
    if raisesForStatus status then none else ogImageOf (env.parseHtml body)

/-- The three-step media-resolution strategy exactly as claim C7 states it:
(1) an embedded `img` in the description, absolute and not
instance-branded; (2) only then an og:image meta tag in the same
description markup, under the same rule; (3) only then the secondary fetch
of the post's own page.  This follows the claim's wording, not the source,
and exists solely to be compared with `extract_image_from_description`. -/
def resolveMediaClaimed (env : Env) (description : Option Markup)
    (tweet_link : String) : Option String :=
  let accept : String → Option String := fun u =>
    if u ≠ "" ∧ pyStartsWith u "http" ∧ pyIn "nitter" u = false then some u else none
  let step1 : Option String :=
    match description with
    | none => none
    | some soup =>
      match findTag soup "img" with
      | none => none
      | some img_tag =>
        match getAttr img_tag "src" with
        | none => none
        | some img_url => accept img_url
  match step1 with
  | some u => some u
  | none =>
    let step2 : Option String :=
      match description with
      | none => none
      | some soup =>
        match findMetaOg soup with
        | none => none
        | some meta_image =>
          match getAttr meta_image "content" with
          | none => none
          | some og_image => accept og_image
    match step2 with
    | some u => some u
    | none => (extract_media_from_tweet env tweet_link).1

/-- An XML item is well formed for the extractor when its `link` child
exists with text and its `description` child exists; `pubDate` may be
anything. -/
def wellFormedItem (it : XmlItem) : Prop :=
  (∃ s, it.link = some (some s)) ∧ ∃ d, it.description = some d

instance (it : XmlItem) : Decidable (wellFormedItem it) := by
  rcases it with ⟨l, d, p⟩
  rcases l with _ | l
  · exact isFalse (by simp [wellFormedItem])
  · rcases l with _ | l
    · exact isFalse (by simp [wellFormedItem])
    · rcases d with _ | d
      · exact isFalse (by simp [wellFormedItem])
      · exact isTrue (by simp [wellFormedItem])

/-- An id that survives the ledger file round trip: non-empty, no newline,
and no leading or trailing whitespace (Python's `strip` on the whole file
would clip it otherwise). -/
def goodId (s : String) : Bool :=
  !s.data.isEmpty && s.data.all (fun c => c ≠ '\n') &&
  (match s.data.head? with
   | some c => !isWs c
   | none => true) &&
  (match s.data.getLast? with
   | some c => !isWs c
   | none => true)

/-!
Concrete inputs used by witnesses and counterexamples.
-/

/-- A body accepted by the probe check of line 40. -/
def rssBody : String := "<?xml body"

/-- A well-formed item whose pubDate is absent. -/
def itemOk1 : XmlItem :=
  ⟨some (some "https://nitter.poast.org/u/status/1"), some none, none⟩

/-- A well-formed item whose pubDate text is not a parseable date. -/
def itemBadDate : XmlItem :=
  ⟨some (some "https://nitter.poast.org/u/status/2"), some none, some (some "not a date")⟩

/-- An item with no `link` child at all. -/
def itemNoLink : XmlItem := ⟨none, some none, none⟩

/-- An item whose link ends in a slash, so the trailing split segment is empty. -/
def itemSlash : XmlItem :=
  ⟨some (some "https://nitter.poast.org/u/status/123/"), some none, none⟩

/-- Environment serving a feed of the given items for account `u`; every
other fetch raises. -/
def envOfItems (items : List XmlItem) : Env :=
  { fetch := fun url =>
      if url = "https://nitter.poast.org/u/rss" then .ok 200 rssBody else .exn
    parseXml := fun b => if b = rssBody then .ok items else .error ()
    parseHtml := fun _ => [] }

def envC5a : Env := envOfItems [itemOk1, itemBadDate, itemNoLink]

def envC5b : Env := envOfItems [itemOk1, itemBadDate]

def envC6 : Env := envOfItems [itemSlash]

/-- Environment in which every request raises `RequestException`. -/
def envExn : Env :=
  { fetch := fun _ => .exn, parseXml := fun _ => .error (), parseHtml := fun _ => [] }

/-- Environment in which every request is answered with status 429. -/
def env429 : Env :=
  { fetch := fun _ => .ok 429 "", parseXml := fun _ => .error (), parseHtml := fun _ => [] }

/-- Environment in which every request is answered with status 404. -/
def env404 : Env :=
  { fetch := fun _ => .ok 404 "", parseXml := fun _ => .error (), parseHtml := fun _ => [] }

/-- The tweet extracted from `itemSlash`: its id is the empty string. -/
def tweetSlash : Tweet :=
  ⟨"", "https://nitter.poast.org/u/status/123/", none, none, none⟩

/-- A description markup holding only an og:image meta tag and no img tag. -/
def descOgOnly : Markup :=
  [⟨"meta", [("property", "og:image"), ("content", "https://pbs.twimg.com/a.jpg")]⟩]

/-- A description markup holding an img tag with a valid external src. -/
def descImg : Markup := [⟨"img", [("src", "https://pbs.twimg.com/b.jpg")]⟩]

/-- A minimal tweet with the given id, used in dispatch witnesses. -/
def tw (i : String) : Tweet := ⟨i, "link-" ++ i, none, none, none⟩

/-- Notifier outcome used in witnesses: only the tweet with id `"a"` is delivered. -/
def outA : Tweet → Nat := fun t => if t.id = "a" then 204 else 500

/-- Notifier outcome used in witnesses: every delivery fails with 500. -/
def out500 : Tweet → Nat := fun _ => 500

/-- Short distinct ledger ids `t0`, `t1`, ... -/
def idNum (n : Nat) : String := "t" ++ toString n

/-- Fifty-one distinct ids in the order they were added to the working set. -/
def insertion51 : List String := (List.range 51).map idNum

/-!
Helper lemmas.
-/

theorem takeLast_of_le {α : Type} {n : Nat} {l : List α} (h : l.length ≤ n) :
    takeLast n l = l := by
  unfold takeLast
  rw [Nat.sub_eq_zero_of_le h]
  exact l.drop_zero

theorem splitChar_ne_nil (c : Char) (l : List Char) : splitChar c l ≠ [] := by
  cases l with
  | nil => simp [splitChar]
  | cons x xs =>
    simp only [splitChar]
    rcases splitChar c xs with _ | ⟨h, t⟩ <;> by_cases hx : x = c <;> simp [hx]

theorem splitChar_no_sep (c : Char) (l : List Char) (h : ∀ x ∈ l, x ≠ c) :
    splitChar c l = [l] := by
  induction l with
  | nil => rfl
  | cons x xs ih =>
    have hx : x ≠ c := h x (List.mem_cons_self x xs)
    have ih' := ih (fun y hy => h y (List.mem_cons_of_mem x hy))
    simp only [splitChar, ih']
    simp [hx]

theorem splitChar_sep_append (c : Char) (p t : List Char) (h : ∀ x ∈ p, x ≠ c) :
    splitChar c (p ++ c :: t) = p :: splitChar c t := by
  induction p with
  | nil =>
    simp only [List.nil_append, splitChar]
    rcases hs : splitChar c t with _ | ⟨h1, t1⟩
    · exact absurd hs (splitChar_ne_nil c t)
    · simp
  | cons x xs ih =>
    have hx : x ≠ c := h x (List.mem_cons_self x xs)
    have ih' := ih (fun y hy => h y (List.mem_cons_of_mem x hy))
    simp only [List.cons_append, splitChar, List.append_eq]
    rw [ih']
    simp [hx]

theorem joinChar_cons_cons (c : Char) (p q : List Char) (rest : List (List Char)) :
    joinChar c (p :: q :: rest) = p ++ c :: joinChar c (q :: rest) := rfl

theorem splitChar_joinChar (c : Char) :
    ∀ ps : List (List Char), ps ≠ [] → (∀ p ∈ ps, ∀ x ∈ p, x ≠ c) →
      splitChar c (joinChar c ps) = ps
  | [], h, _ => absurd rfl h
  | [p], _, hs => by
    simpa [joinChar] using splitChar_no_sep c p (hs p (List.mem_singleton_self p))
  | p :: q :: rest, _, hs => by
    rw [joinChar_cons_cons,
      splitChar_sep_append c p _ (hs p (List.mem_cons_self p _)),
      splitChar_joinChar c (q :: rest) (by simp)
        (fun r hr => hs r (List.mem_cons_of_mem p hr))]

theorem joinChar_ne_nil (c : Char) (p : List Char) (rest : List (List Char))
    (hp : p ≠ []) : joinChar c (p :: rest) ≠ [] := by
  cases rest with
  | nil => simpa [joinChar]
  | cons q r =>
    rw [joinChar_cons_cons]
    simp [hp]

theorem head?_joinChar (c : Char) (p : List Char) (rest : List (List Char))
    (hp : p ≠ []) : (joinChar c (p :: rest)).head? = p.head? := by
  cases rest with
  | nil => rfl
  | cons q r =>
    rw [joinChar_cons_cons]
    rcases p with _ | ⟨a, p'⟩
    · exact absurd rfl hp
    · rfl

theorem getLast?_joinChar (c : Char) :
    ∀ ps : List (List Char), ps ≠ [] → (∀ p ∈ ps, p ≠ []) →
      ∃ q, ps.getLast? = some q ∧ (joinChar c ps).getLast? = q.getLast?
  | [], h, _ => absurd rfl h
  | [p], _, _ => ⟨p, rfl, rfl⟩
  | p :: q :: rest, _, hs => by
    obtain ⟨r, hr1, hr2⟩ := getLast?_joinChar c (q :: rest) (by simp)
      (fun s hsm => hs s (List.mem_cons_of_mem p hsm))
    refine ⟨r, ?_, ?_⟩
    · rw [← hr1]
      rfl
    · rw [joinChar_cons_cons,
        List.getLast?_append_of_ne_nil _ (by simp : (c :: joinChar c (q :: rest)) ≠ [])]
      rw [show (c :: joinChar c (q :: rest)) = [c] ++ joinChar c (q :: rest) from rfl,
        List.getLast?_append_of_ne_nil _
          (joinChar_ne_nil c q rest (hs q (by simp)))]
      exact hr2

theorem dropWhile_eq_self_of_head? {l : List Char}
    (h : ∀ a, l.head? = some a → isWs a = false) : l.dropWhile isWs = l := by
  cases l with
  | nil => rfl
  | cons a t =>
    have := h a rfl
    simp [List.dropWhile, this]

theorem head?_append_left {α : Type} (l m : List α) (h : l ≠ []) :
    (l ++ m).head? = l.head? := by
  cases l with
  | nil => exact absurd rfl h
  | cons a t => rfl

theorem head?_reverse_eq (l : List Char) : l.reverse.head? = l.getLast? := by
  induction l with
  | nil => rfl
  | cons a t ih =>
    cases t with
    | nil => rfl
    | cons b t' =>
      rw [List.reverse_cons, head?_append_left _ _ (by simp), ih,
        List.getLast?_cons_cons]

theorem trimChars_eq_self {l : List Char}
    (h1 : ∀ a, l.head? = some a → isWs a = false)
    (h2 : ∀ a, l.getLast? = some a → isWs a = false) : trimChars l = l := by
  unfold trimChars
  rw [dropWhile_eq_self_of_head? h1]
  rw [dropWhile_eq_self_of_head? (by rw [head?_reverse_eq]; exact h2)]
  exact l.reverse_reverse

theorem map_mk_map_data (l : List String) :
    (l.map String.data).map String.mk = l := by
  induction l with
  | nil => rfl
  | cons s t ih => simp [ih]

theorem runDispatch_cons_skip {outcome : Tweet → Nat}
    {orderOf : List String → List String} {working persisted : List String}
    {t : Tweet} {ts : List Tweet} (h : t.id ≠ "" ∧ t.id ∈ working) :
    runDispatch outcome orderOf working persisted (t :: ts) =
      runDispatch outcome orderOf working persisted ts := by
  simp [runDispatch, dispatchTweet, h]

theorem runDispatch_cons_deliver {outcome : Tweet → Nat}
    {orderOf : List String → List String} {working persisted : List String}
    {t : Tweet} {ts : List Tweet} (h : ¬(t.id ≠ "" ∧ t.id ∈ working))
    (h204 : outcome t = 204) :
    runDispatch outcome orderOf working persisted (t :: ts) =
      ((runDispatch outcome orderOf
          (if t.id ∈ working then working else working ++ [t.id])
          (saveIds (orderOf (if t.id ∈ working then working else working ++ [t.id]))) ts).1,
       (runDispatch outcome orderOf
          (if t.id ∈ working then working else working ++ [t.id])
          (saveIds (orderOf (if t.id ∈ working then working else working ++ [t.id]))) ts).2.1,
       (t, 204) ::
       (runDispatch outcome orderOf
          (if t.id ∈ working then working else working ++ [t.id])
          (saveIds (orderOf (if t.id ∈ working then working else working ++ [t.id]))) ts).2.2) := by
  simp [runDispatch, dispatchTweet, h, h204]

theorem runDispatch_cons_fail {outcome : Tweet → Nat}
    {orderOf : List String → List String} {working persisted : List String}
    {t : Tweet} {ts : List Tweet} (h : ¬(t.id ≠ "" ∧ t.id ∈ working))
    (h204 : outcome t ≠ 204) :
    runDispatch outcome orderOf working persisted (t :: ts) =
      ((runDispatch outcome orderOf working persisted ts).1,
       (runDispatch outcome orderOf working persisted ts).2.1,
       (t, outcome t) :: (runDispatch outcome orderOf working persisted ts).2.2) := by
  simp [runDispatch, dispatchTweet, h, h204]

theorem runDispatch_all_new (outcome : Tweet → Nat)
    (orderOf : List String → List String) :
    ∀ (ts : List Tweet) (working persisted : List String),
      (ts.map Tweet.id).Nodup → (∀ t ∈ ts, t.id ∉ working) →
      ((runDispatch outcome orderOf working persisted ts).2.2).map Prod.fst = ts := by
  intro ts
  induction ts with
  | nil => intro working persisted _ _; rfl
  | cons t ts ih =>
    intro working persisted hnd hnew
    have htw : t.id ∉ working := hnew t (List.mem_cons_self t ts)
    have hskip : ¬(t.id ≠ "" ∧ t.id ∈ working) := fun hc => htw hc.2
    have hnd' : (ts.map Tweet.id).Nodup := (List.nodup_cons.mp (by simpa using hnd)).2
    have hhd : t.id ∉ ts.map Tweet.id := (List.nodup_cons.mp (by simpa using hnd)).1
    by_cases h204 : outcome t = 204
    · rw [runDispatch_cons_deliver hskip h204]
      have hnew' : ∀ r ∈ ts,
          r.id ∉ (if t.id ∈ working then working else working ++ [t.id]) := by
        intro r hr
        have h1 : r.id ∉ working := hnew r (List.mem_cons_of_mem t hr)
        have h2 : r.id ≠ t.id := fun he => hhd (he ▸ List.mem_map_of_mem Tweet.id hr)
        by_cases hm : t.id ∈ working
        · simpa [hm] using h1
        · simp [hm, List.mem_append, h1, h2]
      simp [ih _ _ hnd' hnew']
    · rw [runDispatch_cons_fail hskip h204]
      simp [ih _ _ hnd' (fun r hr => hnew r (List.mem_cons_of_mem t hr))]

theorem runDispatch_persisted_mem (outcome : Tweet → Nat)
    (orderOf : List String → List String)
    (hord : ∀ l : List String, (orderOf l).Perm l) :
    ∀ (ts : List Tweet) (working persisted : List String),
      working.length + ts.length ≤ 50 →
      (∀ x, x ∈ persisted ↔ x ∈ working) →
      ∀ idv, (idv ∈ (runDispatch outcome orderOf working persisted ts).2.1 ↔
        idv ∈ working ∨
          ∃ p ∈ (runDispatch outcome orderOf working persisted ts).2.2,
            (p : Tweet × Nat).1.id = idv ∧ p.2 = 204) := by
  intro ts
  induction ts with
  | nil =>
    intro working persisted _ hpw idv
    simpa [runDispatch] using hpw idv
  | cons t ts ih =>
    intro working persisted hlen hpw idv
    have hlen1 : working.length + ts.length + 1 ≤ 50 := by
      simp only [List.length_cons] at hlen
      omega
    by_cases hskip : t.id ≠ "" ∧ t.id ∈ working
    · rw [runDispatch_cons_skip hskip]
      exact ih working persisted (by omega) hpw idv
    · by_cases h204 : outcome t = 204
      · rw [runDispatch_cons_deliver hskip h204]
        dsimp only
        set working' := if t.id ∈ working then working else working ++ [t.id] with hw'
        have hwlen : working'.length ≤ working.length + 1 := by
          rw [hw']
          split
          · exact Nat.le_succ _
          · simp
        have hlen' : working'.length + ts.length ≤ 50 := by omega
        have hmem' : ∀ x, x ∈ saveIds (orderOf working') ↔ x ∈ working' := by
          intro x
          have hperm := hord working'
          have hlen50 : (orderOf working').length ≤ 50 := by
            rw [hperm.length_eq]
            omega
          rw [saveIds, takeLast_of_le hlen50]
          exact hperm.mem_iff
        rw [ih working' (saveIds (orderOf working')) hlen' hmem' idv]
        have hw : idv ∈ working' ↔ idv ∈ working ∨ idv = t.id := by
          rw [hw']
          split
          · rename_i hm
            constructor
            · exact fun h => Or.inl h
            · rintro (h | rfl)
              · exact h
              · exact hm
          · simp [List.mem_append]
        rw [hw]
        simp only [List.exists_mem_cons_iff]
        constructor
        · rintro ((h | rfl) | h)
          · exact Or.inl h
          · exact Or.inr (Or.inl ⟨rfl, by simp⟩)
          · exact Or.inr (Or.inr h)
        · rintro (h | ⟨heq, _⟩ | h)
          · exact Or.inl (Or.inl h)
          · exact Or.inl (Or.inr heq.symm)
          · exact Or.inr h
      · rw [runDispatch_cons_fail hskip h204]
        dsimp only
        rw [ih working persisted (by omega) hpw idv]
        simp only [List.exists_mem_cons_iff]
        constructor
        · rintro (h | h)
          · exact Or.inl h
          · exact Or.inr (Or.inr h)
        · rintro (h | ⟨_, h2⟩ | h)
          · exact Or.inl h
          · exact absurd h2 h204
          · exact Or.inr h


theorem retryAux_cons (env : Env) (tweet_link i : String) (rest : List String) :
    retryAux env tweet_link (i :: rest) =
      match env.fetch (pyReplace tweet_link firstInstance i) with
      | .exn => ((retryAux env tweet_link rest).1,
          pyReplace tweet_link firstInstance i :: (retryAux env tweet_link rest).2)
      | .ok status body =>
        if raisesForStatus status then
          ((retryAux env tweet_link rest).1,
            pyReplace tweet_link firstInstance i :: (retryAux env tweet_link rest).2)
        else
          match ogImageOf (env.parseHtml body) with
          | some og_image => (some og_image, [pyReplace tweet_link firstInstance i])
          | none => ((retryAux env tweet_link rest).1,
              pyReplace tweet_link firstInstance i :: (retryAux env tweet_link rest).2) := rfl

theorem retryAux_spec (env : Env) (tweet_link : String) (insts : List String) :
    (retryAux env tweet_link insts).2.length <= insts.length /\
    ((retryAux env tweet_link insts).1 = none ->
      (retryAux env tweet_link insts).2 =
        insts.map (fun i => pyReplace tweet_link firstInstance i)) /\
    (retryAux env tweet_link insts).1 =
      (insts.map (fun i => retryProbe env (pyReplace tweet_link firstInstance i))).findSome? id := by
  induction insts with
  | nil => exact ⟨Nat.le_refl 0, fun _ => rfl, rfl⟩
  | cons i rest ih =>
    obtain ⟨ih1, ih2, ih3⟩ := ih
    rcases hf : env.fetch (pyReplace tweet_link firstInstance i) with ⟨status, body⟩ | _
    · by_cases hs : raisesForStatus status
      · have hp : retryProbe env (pyReplace tweet_link firstInstance i) = none := by
          simp [retryProbe, hf, hs]
        rw [retryAux_cons, hf]
        simp only [if_pos hs, List.map_cons, List.findSome?_cons, hp]
        exact ⟨by simpa using Nat.succ_le_succ ih1,
          fun hnone => by simp [ih2 hnone], by simpa using ih3⟩
      · rcases hog : ogImageOf (env.parseHtml body) with _ | u
        · have hp : retryProbe env (pyReplace tweet_link firstInstance i) = none := by
            simp [retryProbe, hf, hs, hog]
          rw [retryAux_cons, hf]
          simp only [if_neg hs, hog, List.map_cons, List.findSome?_cons, hp]
          exact ⟨by simpa using Nat.succ_le_succ ih1,
            fun hnone => by simp [ih2 hnone], by simpa using ih3⟩
        · have hp : retryProbe env (pyReplace tweet_link firstInstance i) = some u := by
            simp [retryProbe, hf, hs, hog]
          rw [retryAux_cons, hf]
          simp only [if_neg hs, hog, List.map_cons, List.findSome?_cons, hp]
          exact ⟨by simp, fun hnone => by simp at hnone, by simp⟩
    · have hp : retryProbe env (pyReplace tweet_link firstInstance i) = none := by
        simp [retryProbe, hf]
      rw [retryAux_cons, hf]
      simp only [List.map_cons, List.findSome?_cons, hp]
      exact ⟨by simpa using Nat.succ_le_succ ih1,
        fun hnone => by simp [ih2 hnone], by simpa using ih3⟩

theorem selectAux_snd (env : Env) (u : String) (insts : List String) :
    (selectAux env u insts).2 =
      insts.find? (fun i => acceptProbe (env.fetch (i ++ "/" ++ u ++ "/rss"))) := by
  induction insts with
  | nil => rfl
  | cons i rest ih =>
    by_cases h : acceptProbe (env.fetch (i ++ "/" ++ u ++ "/rss"))
    · simp [selectAux, List.find?, h]
    · simp [selectAux, List.find?, h, ih]

theorem selectAux_fst (env : Env) (u : String) (insts : List String) :
    (selectAux env u insts).1 =
      insts.takeWhile (fun i => !acceptProbe (env.fetch (i ++ "/" ++ u ++ "/rss"))) ++
      (insts.drop
        (insts.takeWhile
          (fun i => !acceptProbe (env.fetch (i ++ "/" ++ u ++ "/rss")))).length).take 1 := by
  induction insts with
  | nil => rfl
  | cons i rest ih =>
    by_cases h : acceptProbe (env.fetch (i ++ "/" ++ u ++ "/rss"))
    · simp [selectAux, h, List.takeWhile_cons, List.take]
    · simp [selectAux, h, List.takeWhile_cons, ih]

theorem splitChar_append_sep (c : Char) (l : List Char) :
    splitChar c (l ++ [c]) = splitChar c l ++ [[]] := by
  induction l with
  | nil => simp [splitChar]
  | cons x xs ih =>
    simp only [List.cons_append, splitChar, List.append_eq]
    rw [ih]
    rcases hs : splitChar c xs with _ | ⟨h, t⟩
    · exact absurd hs (splitChar_ne_nil c xs)
    · by_cases hx : x = c <;> simp [hx]

theorem splitChar_trailing_sep (c : Char) (l : List Char) :
    (splitChar c (l ++ [c])).getLastD [] = [] := by
  rw [splitChar_append_sep]
  simp

theorem extractItems_wellFormed (env : Env) :
    ∀ items : List XmlItem, (∀ it ∈ items, wellFormedItem it) →
      ∃ ts, extractItems env items = .ok ts ∧ ts.length = items.length ∧
        (∀ p ∈ ts.zip items, (p : Tweet × XmlItem).1.timestamp = pubDateText p.2) ∧
        (∀ p ∈ ts.zip items, ∀ s, (p : Tweet × XmlItem).2.link = some (some s) →
          p.1.id = String.mk ((splitChar '/' s.data).getLastD [])) := by
  intro items
  induction items with
  | nil => exact fun _ => ⟨[], rfl, rfl, by simp, by simp⟩
  | cons it rest ih =>
    intro hwf
    obtain ⟨⟨s, hlink⟩, d, hdesc⟩ := hwf it (List.mem_cons_self it rest)
    obtain ⟨ts, hok, hlen, hts, hid⟩ := ih (fun j hj => hwf j (List.mem_cons_of_mem it hj))
    refine ⟨⟨String.mk ((splitChar '/' s.data).getLastD []), s, d,
      (extract_image_from_description env d s).1, pubDateText it⟩ :: ts, ?_, ?_, ?_, ?_⟩
    · simp [extractItems, processItem, hlink, hdesc, hok]
    · simp [hlen]
    · intro p hp
      rcases List.mem_cons.mp (by simpa using hp) with h | h
      · subst h; rfl
      · exact hts p h
    · intro p hp s' hlink'
      rcases List.mem_cons.mp (by simpa using hp) with h | h
      · subst h
        simp only at hlink' ⊢
        rw [hlink] at hlink'
        obtain rfl : s = s' := by simpa using hlink'
        simp
      · exact hid p h s' hlink'

theorem extractItems_noLink (env : Env) :
    ∀ (pre : List XmlItem) (it : XmlItem) (post : List XmlItem),
      (∀ j ∈ pre, wellFormedItem j) → it.link = none →
      extractItems env (pre ++ it :: post) = .error .attrError := by
  intro pre
  induction pre with
  | nil =>
    intro it post _ hlink
    simp [extractItems, processItem, hlink]
  | cons j pre' ih =>
    intro it post hwf hlink
    obtain ⟨⟨s, hlinkj⟩, d, hdescj⟩ := hwf j (List.mem_cons_self j pre')
    have hrec := ih it post (fun k hk => hwf k (List.mem_cons_of_mem j hk)) hlink
    simp [extractItems, processItem, hlinkj, hdescj, hrec]


/-- C1: starting from an empty ledger, after any sequence of dispatch steps
an id is present in the persisted dedup ledger if and only if a Delivered
outcome (the notifier returning status 204) was observed for it, and a
step whose outcome is not 204 (Rejected / TransientFailure) changes
neither the working set nor the persisted ledger.  The bound of 50 steps
keeps the run inside the ledger's documented capacity, below which the
`[-50:]` truncation of `save_last_tweets` drops nothing. -/
theorem C1_ledger_iff_delivered (outcome : Tweet → Nat)
    (orderOf : List String → List String)
    (hord : ∀ l : List String, (orderOf l).Perm l)
    (tweets : List Tweet) (hlen : tweets.length ≤ 50) (idv : String) :
    ((idv ∈ (processAccount outcome orderOf [] [] tweets).2.1 ↔
      ∃ p ∈ (processAccount outcome orderOf [] [] tweets).2.2,
        (p : Tweet × Nat).1.id = idv ∧ p.2 = 204)) ∧
    (∀ (working persisted : List String) (t : Tweet), outcome t ≠ 204 →
        (dispatchTweet outcome orderOf working persisted t).1 = working ∧
        (dispatchTweet outcome orderOf working persisted t).2.1 = persisted) := by
  constructor
  · have h := runDispatch_persisted_mem outcome orderOf hord tweets.reverse [] []
      (by simpa using hlen) (by simp) idv
    simpa [processAccount] using h
  · intro working persisted t h204
    unfold dispatchTweet
    by_cases hskip : t.id ≠ "" ∧ t.id ∈ working
    · simp [hskip]
    · simp [hskip, h204]

/-- Witness for C1: a concrete three-tweet run in which only the tweet
with id `a` is delivered; the persisted ledger then holds exactly `a`. -/
theorem C1_witness :
    (([tw "c", tw "b", tw "a"] : List Tweet).length ≤ 50) ∧
    (("a" ∈ (processAccount outA (fun l => l) [] [] [tw "c", tw "b", tw "a"]).2.1) ↔
      ∃ p ∈ (processAccount outA (fun l => l) [] [] [tw "c", tw "b", tw "a"]).2.2,
        (p : Tweet × Nat).1.id = "a" ∧ p.2 = 204) :=
  ⟨by decide, (C1_ledger_iff_delivered outA (fun l => l) (fun l => List.Perm.refl l)
      [tw "c", tw "b", tw "a"] (by decide) "a").1⟩

/-- C3: the dispatch loop iterates `reversed(tweets)`, so when every
fetched tweet is new (no id already in the ledger, ids pairwise distinct)
the notifier is invoked on them in reversed, oldest-first source order. -/
theorem C3_chronological_order (outcome : Tweet → Nat)
    (orderOf : List String → List String) (working persisted : List String)
    (tweets : List Tweet) (hnodup : (tweets.map Tweet.id).Nodup)
    (hnew : ∀ t ∈ tweets, t.id ∉ working) :
    ((processAccount outcome orderOf working persisted tweets).2.2).map Prod.fst =
      tweets.reverse := by
  unfold processAccount
  apply runDispatch_all_new
  · rw [show tweets.reverse.map Tweet.id = (tweets.map Tweet.id).reverse by
      simp [List.map_reverse]]
    exact List.nodup_reverse.mpr hnodup
  · intro t ht
    exact hnew t (List.mem_reverse.mp ht)

/-- Witness for C3: source order P3 (newest), P2, P1 (oldest), all new;
the notifier sees P1, P2, P3. -/
theorem C3_witness :
    ((([tw "p3", tw "p2", tw "p1"] : List Tweet).map Tweet.id).Nodup ∧
      (∀ t ∈ ([tw "p3", tw "p2", tw "p1"] : List Tweet), t.id ∉ ([] : List String))) ∧
    ((processAccount out500 (fun l => l) [] [] [tw "p3", tw "p2", tw "p1"]).2.2).map
        Prod.fst = [tw "p1", tw "p2", tw "p3"] :=
  ⟨⟨by decide, by decide⟩, by
    have h := C3_chronological_order out500 (fun l => l) [] []
      [tw "p3", tw "p2", tw "p1"] (by decide) (by decide)
    simpa using h⟩

/-- C4: endpoint selection probes the pool in its fixed order and returns
the first instance whose probe is a transport success with status 200 and
a body that (stripped) starts with the XML declaration; the probed
instances are exactly the rejected prefix plus the first accepted one (no
attempt beyond it); when every endpoint fails the selection is `none`
without raising and the fetch orchestrator returns the empty list. -/
theorem C4_endpoint_selection (env : Env) (username : String) :
    (get_working_nitter_instance env username =
      NITTER_INSTANCES.find?
        (fun i => acceptProbe (env.fetch (i ++ "/" ++ username ++ "/rss")))) ∧
    (probedInstances env username =
      NITTER_INSTANCES.takeWhile
        (fun i => !acceptProbe (env.fetch (i ++ "/" ++ username ++ "/rss"))) ++
      (NITTER_INSTANCES.drop
        (NITTER_INSTANCES.takeWhile
          (fun i => !acceptProbe (env.fetch (i ++ "/" ++ username ++ "/rss")))).length).take
        1) ∧
    (get_working_nitter_instance env username = none →
      get_latest_tweets env username 3 = .ok []) :=
  ⟨selectAux_snd env username NITTER_INSTANCES,
   selectAux_fst env username NITTER_INSTANCES,
   fun h => by simp [get_latest_tweets, h]⟩

/-- Witness for C4: with every request raising, selection yields `none`
and the fetch returns the empty list. -/
theorem C4_witness :
    get_working_nitter_instance envExn "u" = none ∧
    get_latest_tweets envExn "u" 3 = .ok [] :=
  ⟨by decide, (C4_endpoint_selection envExn "u").2.2 (by decide)⟩

/-- C9: the Discord embed carries a media URL only when an independent
verification fetch of that URL returned status 200; an unreachable URL
(request exception) or any non-2xx status suppresses the media (the embed
image is `none`), so an unreachable URL is never forwarded. -/
theorem C9_media_verification (env : Env) (img_url : String) :
    (discordEmbedImage env (some img_url) = some img_url →
      ∃ b, env.fetch img_url = .ok 200 b) ∧
    ((env.fetch img_url = .exn ∨
        ∀ s b, env.fetch img_url = .ok s b → s < 200 ∨ 300 ≤ s) →
      discordEmbedImage env (some img_url) = none) := by
  constructor
  · intro h
    by_cases he : img_url = ""
    · simp [discordEmbedImage, he] at h
    · rcases hf : env.fetch img_url with ⟨s, b⟩ | _
      · simp only [discordEmbedImage, if_neg he, hf] at h
        by_cases hcond : (s == 200 && pyStartsWith img_url "http") = true
        · have hs : s = 200 := by simpa using ((Bool.and_eq_true _ _).mp hcond).1
          exact ⟨b, by rw [hs]⟩
        · rw [if_neg (by simpa using hcond)] at h
          cases h
      · simp [discordEmbedImage, he, hf] at h
  · intro h
    by_cases he : img_url = ""
    · simp [discordEmbedImage, he]
    · rcases hf : env.fetch img_url with ⟨s, b⟩ | _
      · rcases h with h | h
        · rw [h] at hf
          cases hf
        · have hs := h s b hf
          have hne : (s == 200) = false := by
            have : s ≠ 200 := by omega
            simpa using this
          simp [discordEmbedImage, he, hf, hne]
      · simp [discordEmbedImage, he, hf]

/-- Witness for C9: a URL whose verification fetch answers 404 is
suppressed. -/
theorem C9_witness :
    discordEmbedImage env404 (some "https://pbs.twimg.com/a.jpg") = none :=
  (C9_media_verification env404 "https://pbs.twimg.com/a.jpg").2
    (Or.inr (fun s b h => by
      simp [env404] at h
      omega))


theorem goodId_props {s : String} (h : goodId s = true) :
    s.data ≠ [] ∧ (∀ c ∈ s.data, c ≠ '\n') ∧
    (∀ a, s.data.head? = some a → isWs a = false) ∧
    (∀ a, s.data.getLast? = some a → isWs a = false) := by
  unfold goodId at h
  rw [Bool.and_eq_true, Bool.and_eq_true, Bool.and_eq_true] at h
  obtain ⟨⟨⟨h1, h2⟩, h3⟩, h4⟩ := h
  refine ⟨by simpa using h1, by simpa using h2, ?_, ?_⟩
  · intro a ha
    rw [ha] at h3
    simpa using h3
  · intro a ha
    rw [ha] at h4
    simpa using h4

theorem pyRoundTrip (ids : List String) (hne : ids ≠ [])
    (hgood : ∀ s ∈ ids, goodId s = true) :
    (splitChar '\n' (trimChars (joinChar '\n' (ids.map String.data)))).map String.mk
      = ids := by
  have hpartsne : ∀ p ∈ ids.map String.data, p ≠ [] := by
    intro p hp
    obtain ⟨s, hs, rfl⟩ := List.mem_map.mp hp
    exact (goodId_props (hgood s hs)).1
  have hnl : ∀ p ∈ ids.map String.data, ∀ x ∈ p, x ≠ '\n' := by
    intro p hp
    obtain ⟨s, hs, rfl⟩ := List.mem_map.mp hp
    exact (goodId_props (hgood s hs)).2.1
  have hmapne : ids.map String.data ≠ [] := by
    simpa using hne
  have htrim : trimChars (joinChar '\n' (ids.map String.data)) =
      joinChar '\n' (ids.map String.data) := by
    rcases ids with _ | ⟨i0, irest⟩
    · exact absurd rfl hne
    · have hi0 : i0.data ≠ [] := (goodId_props (hgood i0 (by simp))).1
      apply trimChars_eq_self
      · intro a ha
        rw [List.map_cons, head?_joinChar _ _ _ hi0] at ha
        exact (goodId_props (hgood i0 (by simp))).2.2.1 a ha
      · intro a ha
        obtain ⟨q, hq1, hq2⟩ := getLast?_joinChar '\n' ((i0 :: irest).map String.data)
          (by simp) hpartsne
        rw [hq2] at ha
        obtain ⟨s, hs, rfl⟩ :=
          List.mem_map.mp (List.mem_of_mem_getLast? (Option.mem_def.mpr hq1))
        exact (goodId_props (hgood s hs)).2.2.2 a ha
  rw [htrim, splitChar_joinChar '\n' _ hmapne hnl, map_mk_map_data]

/-- C10 (counterexample to the claimed equivalence): the singleton set
with id `" a"` meets the claim's condition (non-empty id, no newline) yet
does not round-trip — the file-level `strip` clips the leading space and
load returns `{"a"}`; conversely the singleton set with the empty id
violates the condition yet round-trips exactly.  The claim's second part
(saving the empty set loads as the singleton empty string) does hold. -/
theorem C10_roundtrip_iff_false :
    ((" a" : String) ≠ "" ∧ (" a".data.all (fun c => c ≠ '\n')) = true) ∧
    load_last_tweets (some (save_last_tweets [" a"])) = ["a"] ∧
    " a" ∉ load_last_tweets (some (save_last_tweets [" a"])) ∧
    load_last_tweets (some (save_last_tweets [""])) = [""] ∧
    load_last_tweets (some (save_last_tweets [])) = [""] := by
  refine ⟨⟨?_, ?_⟩, ?_, ?_, ?_, ?_⟩ <;> decide

/-- C10 amended: saving then loading returns exactly the saved ids when
the set is non-empty, holds at most 50 ids, and every id is non-empty
with no newline and no leading or trailing whitespace; saving the empty
set then loading yields the singleton set containing the empty string. -/
theorem C10_roundtrip_amended (ids : List String) (hne : ids ≠ [])
    (hlen : ids.length ≤ 50) (hgood : ∀ s ∈ ids, goodId s = true) :
    load_last_tweets (some (save_last_tweets ids)) = ids ∧
    load_last_tweets (some (save_last_tweets [])) = [""] := by
  constructor
  · show (splitChar '\n'
        (trimChars (joinChar '\n' ((saveIds ids).map String.data)))).map String.mk = ids
    rw [saveIds, takeLast_of_le hlen]
    exact pyRoundTrip ids hne hgood
  · decide

/-- Witness for C10 at the singleton set with id `abc`. -/
theorem C10_witness :
    ((["abc"] : List String) ≠ [] ∧ (["abc"] : List String).length ≤ 50 ∧
      ∀ s ∈ (["abc"] : List String), goodId s = true) ∧
    load_last_tweets (some (save_last_tweets ["abc"])) = ["abc"] :=
  ⟨⟨by decide, by decide, by decide⟩,
    (C10_roundtrip_amended ["abc"] (by decide) (by decide) (by decide)).1⟩

set_option maxRecDepth 8192 in
/-- C2 (code bug demonstration): `save_last_tweets` keeps the last 50
entries of `list(tweet_ids)`, but `tweet_ids` is a Python set whose
enumeration order is unrelated to insertion order.  With 51 ids inserted
in order `t0..t50` and an enumeration that happens to reverse them (a
valid permutation of the set), the persisted ledger drops the newest id
`t50` and keeps the oldest id `t0` — not the 50 most recently added,
oldest evicted first. -/
theorem C2_recency_not_kept :
    insertion51.reverse.Perm insertion51 ∧
    (load_last_tweets (some (save_last_tweets insertion51.reverse))).length = 50 ∧
    idNum 50 ∉ load_last_tweets (some (save_last_tweets insertion51.reverse)) ∧
    idNum 0 ∈ load_last_tweets (some (save_last_tweets insertion51.reverse)) :=
  ⟨List.reverse_perm insertion51, by decide, by decide, by decide⟩


/-- C5 (counterexample): with a feed of three entries where entry 2 has a
malformed timestamp and entry 3 has no link element, extraction does not
yield entries 1 and 2 — the attribute error on entry 3 escapes
`get_latest_tweets` and aborts the whole batch; and with entries 1 and 2
alone, the malformed timestamp is forwarded verbatim, not as `none`. -/
theorem C5_extraction_not_isolated :
    get_latest_tweets envC5a "u" 3 = .error .attrError ∧
    get_latest_tweets envC5b "u" 3 = .ok
      [⟨"1", "https://nitter.poast.org/u/status/1", none, none, none⟩,
       ⟨"2", "https://nitter.poast.org/u/status/2", none, none, some "not a date"⟩] := by
  exact ⟨rfl, rfl⟩

/-- C5 amended: a transport or XML-parse failure of the feed is contained,
and among the entry fields only `pubDate` degrades gracefully — a missing
`pubDate` yields timestamp `none` while any present text (malformed or
not) is forwarded verbatim; but per-item isolation does not hold: an entry
with no link element raises an error that escapes extraction and discards
every other entry of the batch. -/
theorem C5_isolation_amended (env : Env) :
    (∀ items : List XmlItem, (∀ it ∈ items, wellFormedItem it) →
      ∃ ts, extractItems env items = .ok ts ∧ ts.length = items.length ∧
        ∀ p ∈ ts.zip items, (p : Tweet × XmlItem).1.timestamp = pubDateText p.2) ∧
    (∀ (pre : List XmlItem) (it : XmlItem) (post : List XmlItem),
      (∀ j ∈ pre, wellFormedItem j) → it.link = none →
      extractItems env (pre ++ it :: post) = .error .attrError) :=
  ⟨fun items h => (extractItems_wellFormed env items h).imp
      (fun _ hts => ⟨hts.1, hts.2.1, hts.2.2.1⟩),
   extractItems_noLink env⟩

/-- Witness for C5: two well-formed items extract with their raw
timestamps; appending a link-less item aborts the whole extraction. -/
theorem C5_witness :
    (∀ it ∈ [itemOk1, itemBadDate], wellFormedItem it) ∧
    (∃ ts, extractItems envC5b [itemOk1, itemBadDate] = .ok ts ∧ ts.length = 2 ∧
      ∀ p ∈ ts.zip [itemOk1, itemBadDate],
        (p : Tweet × XmlItem).1.timestamp = pubDateText p.2) ∧
    extractItems envC5a ([itemOk1, itemBadDate] ++ itemNoLink :: []) =
      .error .attrError :=
  ⟨by decide,
   by
    have h := (C5_isolation_amended envC5b).1 [itemOk1, itemBadDate] (by decide)
    simpa using h,
   (C5_isolation_amended envC5a).2 [itemOk1, itemBadDate] itemNoLink [] (by decide)
     (by decide)⟩

/-- C6 (counterexample): a link ending in `/` derives the empty identifier
(`split("/")[-1]` is the last segment, empty here — not the last non-empty
segment `123`), and the entry is not dropped: extraction outputs it and
the dispatch loop still invokes the notifier on it (an empty id is falsy,
so the dedup check never skips it). -/
theorem C6_empty_id_not_dropped :
    get_latest_tweets envC6 "u" 3 = .ok [tweetSlash] ∧
    tweetSlash.id = "" ∧ tweetSlash.id ≠ "123" ∧
    (runDispatch out500 (fun l => l) [] [] [tweetSlash]).2.2 = [(tweetSlash, 500)] := by
  exact ⟨rfl, rfl, by decide, rfl⟩

/-- C6 amended: the identifier is the final segment of the link split on
`/`, which is empty whenever the link ends in `/`; no entry is dropped
over its identifier — well-formed entries are extracted one-for-one with
the trailing-segment id, an empty-id tweet is still passed to the
notifier, and an entry with no link element instead aborts the whole
extraction with an escaping error (see C5). -/
theorem C6_id_amended (env : Env) :
    (∀ l : List Char, (splitChar '/' (l ++ ['/'])).getLastD [] = []) ∧
    (∀ items : List XmlItem, (∀ it ∈ items, wellFormedItem it) →
      ∃ ts, extractItems env items = .ok ts ∧ ts.length = items.length ∧
        ∀ p ∈ ts.zip items, ∀ s, (p : Tweet × XmlItem).2.link = some (some s) →
          p.1.id = String.mk ((splitChar '/' s.data).getLastD [])) ∧
    (∀ (outcome : Tweet → Nat) (orderOf : List String → List String)
        (working persisted : List String) (t : Tweet), t.id = "" →
      (dispatchTweet outcome orderOf working persisted t).2.2 = some (outcome t)) :=
  ⟨splitChar_trailing_sep '/',
   fun items h => (extractItems_wellFormed env items h).imp
     (fun _ hts => ⟨hts.1, hts.2.1, hts.2.2.2⟩),
   fun outcome orderOf working persisted t ht => by
     by_cases h204 : outcome t = 204 <;> simp [dispatchTweet, ht, h204]⟩

/-- Witness for C6: the slash-terminated item extracts with the empty id
and the dispatch step still notifies. -/
theorem C6_witness :
    (∀ it ∈ [itemSlash], wellFormedItem it) ∧
    (∃ ts, extractItems envC6 [itemSlash] = .ok ts ∧ ts.length = 1 ∧
      ∀ p ∈ ts.zip [itemSlash], ∀ s, (p : Tweet × XmlItem).2.link = some (some s) →
        p.1.id = String.mk ((splitChar '/' s.data).getLastD [])) ∧
    (dispatchTweet out500 (fun l => l) [] [] tweetSlash).2.2 = some 500 :=
  ⟨by decide,
   by
    have h := (C6_id_amended envC6).2.1 [itemSlash] (by decide)
    simpa using h,
   by
    have h := (C6_id_amended envC6).2.2 out500 (fun l => l) [] [] tweetSlash rfl
    simpa using h⟩


/-- C7 (counterexample): a description carrying an og:image meta tag and
no img tag should, by the claim's step 2, resolve to that URL from the
description itself with no secondary fetch; the code never inspects
og:image tags in the description — it performs the secondary fetch of the
tweet page (which here raises) and returns none. -/
theorem C7_og_in_description_ignored :
    resolveMediaClaimed envExn (some descOgOnly)
        "https://nitter.poast.org/u/status/9" =
      some "https://pbs.twimg.com/a.jpg" ∧
    extract_image_from_description envExn (some descOgOnly)
        "https://nitter.poast.org/u/status/9" =
      (none, ["https://nitter.poast.org/u/status/9"]) := by
  exact ⟨rfl, rfl⟩

/-- C7 amended: media resolution is a two-step chain with short-circuit
semantics: (1) the description's first img tag whose src is truthy,
absolute and not containing "nitter" wins and no fetch happens at all;
og:image meta tags in the description are never consulted (prepending any
non-img element, such as an og:image meta tag, leaves the result
unchanged); (2) in every other case the resolver performs the secondary
fetch of the post's own page. -/
theorem C7_media_two_step (env : Env) (soup : Markup) (tweet_link : String) :
    (∀ img_tag img_url, findTag soup "img" = some img_tag →
      getAttr img_tag "src" = some img_url →
      (img_url ≠ "" ∧ pyStartsWith img_url "http" ∧ pyIn "nitter" img_url = false) →
      extract_image_from_description env (some soup) tweet_link = (some img_url, [])) ∧
    (∀ e : HtmlElem, e.tag ≠ "img" →
      extract_image_from_description env (some (e :: soup)) tweet_link =
        extract_image_from_description env (some soup) tweet_link) ∧
    (findTag soup "img" = none →
      extract_image_from_description env (some soup) tweet_link =
        extract_media_from_tweet env tweet_link) := by
  refine ⟨?_, ?_, ?_⟩
  · intro img_tag img_url hf hg hv
    simp [extract_image_from_description, hf, hg, hv]
  · intro e he
    have hft : findTag (e :: soup) "img" = findTag soup "img" := by
      simp [findTag, List.find?, show (e.tag == "img") = false by simpa using he]
    simp [extract_image_from_description, hft]
  · intro hf
    simp [extract_image_from_description, hf]

/-- Witness for C7: a valid embedded img wins with no fetch; prepending an
og:image meta tag changes nothing. -/
theorem C7_witness :
    extract_image_from_description envExn (some descImg) "L" =
      (some "https://pbs.twimg.com/b.jpg", []) ∧
    extract_image_from_description envExn
        (some (⟨"meta", [("property", "og:image"),
          ("content", "https://pbs.twimg.com/a.jpg")]⟩ :: descOgOnly)) "L" =
      extract_image_from_description envExn (some descOgOnly) "L" :=
  ⟨(C7_media_two_step envExn descImg "L").1
      ⟨"img", [("src", "https://pbs.twimg.com/b.jpg")]⟩
      "https://pbs.twimg.com/b.jpg" (by decide) (by decide) (by decide),
   (C7_media_two_step envExn descOgOnly "L").2.1
      ⟨"meta", [("property", "og:image"), ("content", "https://pbs.twimg.com/a.jpg")]⟩
      (by decide)⟩

/-- C8 (counterexample to "a different mirror"): when the rate-limited
link lives on the first pool instance, the first retry fetches the very
same URL (the substitution maps the first instance to itself), so a retry
against the same mirror does occur; the sequence of fetched URLs under
blanket 429s is the original plus one per pool instance, the first of
which equals the original. -/
theorem C8_retry_same_mirror :
    extract_media_from_tweet env429 "https://nitter.poast.org/u/status/1" =
      (none,
       ["https://nitter.poast.org/u/status/1",
        "https://nitter.poast.org/u/status/1",
        "https://nitter.privacydev.net/u/status/1",
        "https://nitter.42l.fr/u/status/1",
        "https://nitter.cz/u/status/1"]) := by
  exact rfl

/-- C8 amended: on a 429 the resolver retries once per pool instance (the
alternate URL substitutes the first pool instance's base, so a genuinely
different mirror is not guaranteed); the number of fetches is bounded by
the pool size plus the original fetch; exhausting every mirror yields
none with exactly one attempt per instance; and a RequestException or a
non-429 error status yields none immediately with no retry. -/
theorem C8_bounded_retry (env : Env) (tweet_link : String) :
    ((extract_media_from_tweet env tweet_link).2.length ≤
      1 + NITTER_INSTANCES.length) ∧
    (env.fetch tweet_link = .exn →
      extract_media_from_tweet env tweet_link = (none, [tweet_link])) ∧
    (∀ s b, env.fetch tweet_link = .ok s b → raisesForStatus s → s ≠ 429 →
      extract_media_from_tweet env tweet_link = (none, [tweet_link])) ∧
    ((retry_media_extraction env tweet_link).2.length ≤ NITTER_INSTANCES.length) ∧
    ((retry_media_extraction env tweet_link).1 = none →
      (retry_media_extraction env tweet_link).2 =
        NITTER_INSTANCES.map (fun i => pyReplace tweet_link firstInstance i)) := by
  obtain ⟨h1, h2, _⟩ := retryAux_spec env tweet_link NITTER_INSTANCES
  refine ⟨?_, ?_, ?_, h1, h2⟩
  · unfold extract_media_from_tweet
    rcases hf : env.fetch tweet_link with ⟨s, b⟩ | _
    · dsimp only
      by_cases hs : raisesForStatus s
      · by_cases h429 : s = 429
        · rw [if_pos hs, if_pos h429]
          dsimp only
          simp only [retry_media_extraction, List.length_cons]
          omega
        · simp [hs, h429]
      · rcases hog : ogImageOf (env.parseHtml b) with _ | u <;>
          simp [hs, hog, NITTER_INSTANCES]
    · dsimp only
      simp [NITTER_INSTANCES]
  · intro h
    simp [extract_media_from_tweet, h]
  · intro s b hf hs h429
    simp [extract_media_from_tweet, hf, hs, h429]

/-- Witness for C8: no retry on a RequestException or a 404; under
blanket 429s the retry attempts are exactly one substituted URL per pool
instance. -/
theorem C8_witness :
    extract_media_from_tweet envExn "L" = (none, ["L"]) ∧
    extract_media_from_tweet env404 "L" = (none, ["L"]) ∧
    (retry_media_extraction env429 "https://nitter.poast.org/u/status/1").2 =
      NITTER_INSTANCES.map (fun i =>
        pyReplace "https://nitter.poast.org/u/status/1" firstInstance i) :=
  ⟨(C8_bounded_retry envExn "L").2.1 rfl,
   (C8_bounded_retry env404 "L").2.2.1 404 "" rfl (by decide) (by decide),
   (C8_bounded_retry env429 "https://nitter.poast.org/u/status/1").2.2.2.2 rfl⟩

end TwitterBot
